import Mathlib

/-!
Verification of the sync-my-exts repository: a shallow embedding of the
GitHub-backed synchronization core (src/extensionSync.ts in part_000 and
src/githubAuth.ts in part_001) together with proofs of the frozen claims.

Modelling conventions:
* Remote HTTP calls (axios) are represented by an explicit handler record
  `Remote σ` threading a state `σ`; a call either returns a response or an
  `HttpError`.  An axios error that carries a response with status code `n`
  is `HttpError.status n`; an error with no response (network failure,
  non-axios exception) is `HttpError.network`.
* Thrown JavaScript `Error(msg)` values are `SyncError.userError msg`;
  re-thrown transport errors are `SyncError.http e`.
* File contents are byte lists (`Bytes`); `Buffer.from(content).toString('base64')`
  is the genuine base64 encoding `base64Encode`, and the decoding direction in
  `getFileContent` is `base64Decode`.
* The GitHub contents endpoint is given an operational model `storeRemote`
  over an association list from request URL to stored file, implementing the
  documented create/update semantics (create needs no sha, update needs the
  current sha).
-/

/- ## Bytes, transport errors, requests -/

abbrev Bytes := List Nat

inductive HttpError where
  | status (code : Nat)
  | network
deriving DecidableEq, Repr

deriving instance DecidableEq for Except

structure GetResp where
  content : String
  sha : String
deriving DecidableEq, Repr

structure PutBody where
  message : String
  content : String
  sha : Option String
deriving DecidableEq, Repr

inductive Event where
  | getEv (url : String) (r : Except HttpError GetResp)
  | putEv (url : String) (body : PutBody) (r : Except HttpError Unit)
deriving DecidableEq, Repr

inductive SyncError where
  | userError (msg : String)
  | http (e : HttpError)
deriving DecidableEq, Repr

/- ## Base64 (Buffer.from(content).toString('base64') and its inverse) -/

def base64Alphabet : List Char :=
  String.data "ABCDEFGHIJKLMNOPQRSTUVWXYZabcdefghijklmnopqrstuvwxyz0123456789+/"

def sextetChar (n : Nat) : Char := base64Alphabet.getD n '*'

def charIndexIn : List Char → Char → Option Nat
  | [], _ => none
  | a :: rest, c => if a = c then some 0 else (charIndexIn rest c).map (· + 1)

def sextetIndex (c : Char) : Nat := (charIndexIn base64Alphabet c).getD 64

def base64EncodeChunks : List Nat → List Char
  | b1 :: b2 :: b3 :: rest =>
      sextetChar (b1 / 4) :: sextetChar (b1 % 4 * 16 + b2 / 16) ::
      sextetChar (b2 % 16 * 4 + b3 / 64) :: sextetChar (b3 % 64) ::
      base64EncodeChunks rest
  | [b1, b2] =>
      [sextetChar (b1 / 4), sextetChar (b1 % 4 * 16 + b2 / 16),
       sextetChar (b2 % 16 * 4), '=']
  | [b1] => [sextetChar (b1 / 4), sextetChar (b1 % 4 * 16), '=', '=']
  | [] => []

def base64Encode (bs : Bytes) : String := String.mk (base64EncodeChunks bs)

def base64DecodeChars : List Char → Bytes
  | c1 :: c2 :: c3 :: c4 :: rest =>
      if c3 = '=' then
        [sextetIndex c1 * 4 + sextetIndex c2 / 16]
      else if c4 = '=' then
        [sextetIndex c1 * 4 + sextetIndex c2 / 16,
         sextetIndex c2 % 16 * 16 + sextetIndex c3 / 4]
      else
        (sextetIndex c1 * 4 + sextetIndex c2 / 16) ::
        (sextetIndex c2 % 16 * 16 + sextetIndex c3 / 4) ::
        (sextetIndex c3 % 4 * 64 + sextetIndex c4) ::
        base64DecodeChars rest
  | _ => []

def base64Decode (s : String) : Bytes := base64DecodeChars s.data

theorem sextetIndex_sextetChar : ∀ n < 64, sextetIndex (sextetChar n) = n := by
  decide

theorem sextetChar_ne_pad : ∀ n < 64, sextetChar n ≠ '=' := by
  decide

theorem base64_roundtrip (bs : Bytes) (h : ∀ b ∈ bs, b < 256) :
    base64Decode (base64Encode bs) = bs := by
  show base64DecodeChars (base64EncodeChunks bs) = bs
  induction bs using base64EncodeChunks.induct with
  | case1 b1 b2 b3 rest ih =>
      have hb1 : b1 < 256 := h b1 (by simp)
      have hb2 : b2 < 256 := h b2 (by simp)
      have hb3 : b3 < 256 := h b3 (by simp)
      have h1 : b1 / 4 < 64 := by omega
      have h2 : b1 % 4 * 16 + b2 / 16 < 64 := by omega
      have h3 : b2 % 16 * 4 + b3 / 64 < 64 := by omega
      have h4 : b3 % 64 < 64 := by omega
      have ih2 := ih (fun b hb => h b (by simp [hb]))
      simp [base64EncodeChunks, base64DecodeChars,
        sextetChar_ne_pad _ h3, sextetChar_ne_pad _ h4,
        sextetIndex_sextetChar _ h1, sextetIndex_sextetChar _ h2,
        sextetIndex_sextetChar _ h3, sextetIndex_sextetChar _ h4, ih2,
        List.cons.injEq]
      refine ⟨by omega, by omega, by omega⟩
  | case2 b1 b2 =>
      have hb1 : b1 < 256 := h b1 (by simp)
      have hb2 : b2 < 256 := h b2 (by simp)
      have h1 : b1 / 4 < 64 := by omega
      have h2 : b1 % 4 * 16 + b2 / 16 < 64 := by omega
      have h3 : b2 % 16 * 4 < 64 := by omega
      simp [base64EncodeChunks, base64DecodeChars,
        sextetChar_ne_pad _ h3,
        sextetIndex_sextetChar _ h1, sextetIndex_sextetChar _ h2,
        sextetIndex_sextetChar _ h3, List.cons.injEq]
      refine ⟨by omega, by omega⟩
  | case3 b1 =>
      have hb1 : b1 < 256 := h b1 (by simp)
      have h1 : b1 / 4 < 64 := by omega
      have h2 : b1 % 4 * 16 < 64 := by omega
      simp [base64EncodeChunks, base64DecodeChars,
        sextetIndex_sextetChar _ h1, sextetIndex_sextetChar _ h2,
        List.cons.injEq]
      omega
  | case4 => simp [base64EncodeChunks, base64DecodeChars]

/- ## Repository coordinates

`createOrUpdateFile` and `getFileContent` both run
`const [owner, repo] = repository.split('/')` and throw a format error when
either destructured part is falsy.  JavaScript `split('/')` splits at every
slash, and array destructuring keeps only the first two elements. -/

def splitSlashAux : List Char → List (List Char)
  | [] => [[]]
  | c :: rest =>
      if c = '/' then [] :: splitSlashAux rest
      else
        match splitSlashAux rest with
        | [] => [[c]]
        | h :: t => (c :: h) :: t

/-- JavaScript `s.split('/')`: every slash is a separator; the empty string
splits to `[""]`. -/
def jsSplitSlash (s : String) : List String :=
  (splitSlashAux s.data).map String.mk

def parseRepoCoordinate (s : String) : Option (String × String) :=
  match jsSplitSlash s with
  | owner :: repo :: _ => if owner = "" ∨ repo = "" then none else some (owner, repo)
  | _ => none

def joinWithSlash : List String → String
  | [] => ""
  | [x] => x
  | x :: rest => x ++ "/" ++ joinWithSlash rest

/-- Spec-side parsing, written from the specification text only: split on the
first "/" and succeed exactly when both resulting parts are non-empty,
returning both parts unchanged (so the repo name keeps any further slashes).
Used to compare claim C2 against the source-level `parseRepoCoordinate`. -/
def parseRepoCoordinateSpec (s : String) : Option (String × String) :=
  match jsSplitSlash s with
  | owner :: r :: rest =>
      let repoName := joinWithSlash (r :: rest)
      if owner = "" ∨ repoName = "" then none else some (owner, repoName)
  | _ => none

def apiUrl (owner repo file : String) : String :=
  "https://api.github.com/repos/" ++ owner ++ "/" ++ repo ++ "/contents/" ++ file

def loginRequiredMsg : String :=
  "GitHubにログインしてください。サイドバーから「GitHubにログイン」を実行してください。"

def repoFormatMsg : String :=
  "リポジトリ名の形式が正しくありません。例: username/repo-name"

def notFoundMsg (file : String) : String :=
  file ++ " が見つかりません。先に同期を実行してください。"

/- ## Remote handlers and the contents-endpoint store model -/

structure Remote (σ : Type) where
  doGet : σ → String → Except HttpError GetResp × σ
  doPut : σ → String → PutBody → Except HttpError Unit × σ

structure RemoteFile where
  content : Bytes
  sha : String
deriving DecidableEq, Repr

abbrev Store := List (String × RemoteFile)

def assocFind {α : Type} (p : String) : List (String × α) → Option α
  | [] => none
  | (q, v) :: rest => if q = p then some v else assocFind p rest

def mkSha (c : Bytes) : String := "blob-" ++ toString c

/-- GET on the contents endpoint: the stored content is returned
base64-encoded together with its sha; an absent file is a 404 response. -/
def storeGet (st : Store) (url : String) : Except HttpError GetResp × Store :=
  match assocFind url st with
  | some f => (.ok ⟨base64Encode f.content, f.sha⟩, st)
  | none => (.error (.status 404), st)

/-- PUT on the contents endpoint: creating requires the file to be absent and
no sha; updating requires the sha of the current revision (a stale sha is a
409 conflict, per the documented best-effort check). -/
def storePut (st : Store) (url : String) (body : PutBody) :
    Except HttpError Unit × Store :=
  match assocFind url st, body.sha with
  | none, none =>
      (.ok (), (url, ⟨base64Decode body.content, mkSha (base64Decode body.content)⟩) :: st)
  | some f, some s =>
      if s = f.sha then
        (.ok (), (url, ⟨base64Decode body.content, mkSha (base64Decode body.content)⟩) :: st)
      else (.error (.status 409), st)
  | none, some _ => (.error (.status 422), st)
  | some _, none => (.error (.status 422), st)

def storeRemote : Remote Store := ⟨storeGet, storePut⟩

/- ## createOrUpdateFile and getFileContent (src/extensionSync.ts) -/

structure SyncResult (σ : Type) where
  result : Except SyncError Unit
  state : σ
  events : List Event
deriving DecidableEq, Repr

/-- The create request issued inside the catch block. -/
def createBody (targetFile now : String) (content : Bytes) : PutBody :=
  ⟨"Create " ++ targetFile ++ " - " ++ now, base64Encode content, none⟩

/-- The update request issued when the existence check succeeded; it carries
the sha from the read performed immediately before the write. -/
def updateBody (targetFile now : String) (content : Bytes) (sha : String) : PutBody :=
  ⟨"Update " ++ targetFile ++ " - " ++ now, base64Encode content, some sha⟩

/-- The catch block of createOrUpdateFile: a caught axios error with response
status 404 triggers the create PUT (whose own failure propagates, since it is
not wrapped in a further try); any other error is re-thrown. -/
def catchCreate {σ : Type} (R : Remote σ) (s : σ) (url : String) (body : PutBody)
    (e : HttpError) : Except SyncError Unit × σ × List Event :=
  if e = .status 404 then
    match R.doPut s url body with
    | (.ok _, s2) => (.ok (), s2, [.putEv url body (.ok ())])
    | (.error e2, s2) => (.error (.http e2), s2, [.putEv url body (.error e2)])
  else (.error (.http e), s, [])

/-- ExtensionSync.createOrUpdateFile.  `token` is the stored GitHub token
(`none` when getStoredToken yields nothing, which throws the login-required
error), `repository` the resolved repository configuration, `now` the current
timestamp used in commit messages.  The try block performs the existence-check
GET, a second GET for the sha, and the update PUT; the catch issues the create
PUT on a 404.  `events` records every remote request with its response. -/
def createOrUpdateFile {σ : Type} (R : Remote σ) (s0 : σ) (token : Option String)
    (repository now : String) (content : Bytes) (targetFile : String) :
    SyncResult σ :=
  match token with
  | none => ⟨.error (.userError loginRequiredMsg), s0, []⟩
  | some _ =>
    match parseRepoCoordinate repository with
    | none => ⟨.error (.userError repoFormatMsg), s0, []⟩
    | some (owner, repo) =>
      let url := apiUrl owner repo targetFile
      let cBody := createBody targetFile now content
      match R.doGet s0 url with
      | (.error e, s1) =>
          match catchCreate R s1 url cBody e with
          | (r, s2, evs) => ⟨r, s2, .getEv url (.error e) :: evs⟩
      | (.ok g1, s1) =>
        match R.doGet s1 url with
        | (.error e, s2) =>
            match catchCreate R s2 url cBody e with
            | (r, s3, evs) => ⟨r, s3, .getEv url (.ok g1) :: .getEv url (.error e) :: evs⟩
        | (.ok g2, s2) =>
          let uBody := updateBody targetFile now content g2.sha
          match R.doPut s2 url uBody with
          | (.ok _, s3) =>
              ⟨.ok (), s3, [.getEv url (.ok g1), .getEv url (.ok g2), .putEv url uBody (.ok ())]⟩
          | (.error e, s3) =>
              match catchCreate R s3 url cBody e with
              | (r, s4, evs) =>
                  ⟨r, s4, .getEv url (.ok g1) :: .getEv url (.ok g2) ::
                    .putEv url uBody (.error e) :: evs⟩

/-- ExtensionSync.getFileContent: one GET; on success the base64 content is
decoded; a 404 becomes the file-specific not-found error; anything else is
re-thrown unchanged. -/
def getFileContent {σ : Type} (R : Remote σ) (s0 : σ) (token : Option String)
    (repository targetFile : String) : Except SyncError Bytes × σ :=
  match token with
  | none => (.error (.userError loginRequiredMsg), s0)
  | some _ =>
    match parseRepoCoordinate repository with
    | none => (.error (.userError repoFormatMsg), s0)
    | some (owner, repo) =>
      let url := apiUrl owner repo targetFile
      match R.doGet s0 url with
      | (.ok g, s1) => (.ok (base64Decode g.content), s1)
      | (.error e, s1) =>
          if e = .status 404 then (.error (.userError (notFoundMsg targetFile)), s1)
          else (.error (.http e), s1)

/- ## Local filesystem model and importSettings -/

abbrev LocalFS := List (String × Bytes)

/-- Local filesystem state: stored files plus the set of paths where
`fs.writeFileSync` throws (permission/IO errors). -/
structure LocalEnv where
  fsys : LocalFS
  badPaths : List String
deriving DecidableEq, Repr

/-- fs.writeFileSync: overwrites the file, or throws a local I/O error. -/
def writeFileSync (L : LocalEnv) (p : String) (c : Bytes) : Except SyncError LocalEnv :=
  if L.badPaths.contains p then .error (.userError ("EACCES: " ++ p))
  else .ok ⟨(p, c) :: L.fsys, L.badPaths⟩

/-- ExtensionSync.importSettings: fetch `settings.json` and overwrite the
local user settings file (both failures propagate); then, inside a
try/catch whose catch ignores everything, fetch `remote-settings.json` and,
when a remote-settings path resolves, overwrite it. -/
def importSettings {σ : Type} (R : Remote σ) (s0 : σ) (token : Option String)
    (repository : String) (L : LocalEnv) (userSettingsPath : String)
    (remoteSettingsPath : Option String) : Except SyncError Unit × σ × LocalEnv :=
  match getFileContent R s0 token repository "settings.json" with
  | (.error e, s1) => (.error e, s1, L)
  | (.ok c1, s1) =>
    match writeFileSync L userSettingsPath c1 with
    | .error e => (.error e, s1, L)
    | .ok L1 =>
      match getFileContent R s1 token repository "remote-settings.json" with
      | (.error _, s2) => (.ok (), s2, L1)
      | (.ok c2, s2) =>
        match remoteSettingsPath with
        | none => (.ok (), s2, L1)
        | some p =>
          match writeFileSync L1 p c2 with
          | .error _ => (.ok (), s2, L1)
          | .ok L2 => (.ok (), s2, L2)

/- ## Extension snapshots and syncExtensions -/

/-- The fields of a vscode.Extension the sync code reads: `ext.id` plus
packageJSON's isBuiltin, displayName, name, version, description. -/
structure RawExtension where
  id : String
  isBuiltin : Bool
  displayName : Option String
  name : String
  version : String
  description : Option String
deriving DecidableEq, Repr

structure ExtensionInfo where
  id : String
  name : String
  version : String
  description : Option String
deriving DecidableEq, Repr

/-- `displayName || name`: JavaScript `||` also falls through on the empty
string. -/
def toExtensionInfo (e : RawExtension) : ExtensionInfo :=
  { id := e.id
    name := match e.displayName with
            | some d => if d = "" then e.name else d
            | none => e.name
    version := e.version
    description := e.description }

/-- ExtensionSync.getInstalledExtensions: filter out built-ins, keep
enumeration order. -/
def getInstalledExtensions (allExts : List RawExtension) : List ExtensionInfo :=
  (allExts.filter (fun e => !e.isBuiltin)).map toExtensionInfo

structure ExtensionsData where
  extensions : List ExtensionInfo
  lastUpdated : String
  vscodeVersion : String
deriving DecidableEq, Repr

def hexDigit (n : Nat) : Char :=
  (String.data "0123456789abcdef").getD n '0'

/-- JSON.stringify escaping for one character of a string value. -/
def jsonEscapeChar (c : Char) : String :=
  if c = '"' then "\\\""
  else if c = '\\' then "\\\\"
  else if c = '\x08' then "\\b"
  else if c = '\x09' then "\\t"
  else if c = '\x0a' then "\\n"
  else if c = '\x0c' then "\\f"
  else if c = '\x0d' then "\\r"
  else if c.toNat < 32 then
    "\\u00" ++ String.mk [hexDigit (c.toNat / 16), hexDigit (c.toNat % 16)]
  else String.mk [c]

def jsonString (s : String) : String :=
  "\"" ++ String.join (s.data.map jsonEscapeChar) ++ "\""

/-- One entry of the extensions array as JSON.stringify(data, null, 2) prints
it (indentation level 2, i.e. 4 and 6 spaces); an undefined description is
omitted entirely. -/
def stringifyExtension (e : ExtensionInfo) : String :=
  "    \x7b\n      \"id\": " ++ jsonString e.id ++
  ",\n      \"name\": " ++ jsonString e.name ++
  ",\n      \"version\": " ++ jsonString e.version ++
  (match e.description with
   | some d => ",\n      \"description\": " ++ jsonString d
   | none => "") ++
  "\n    \x7d"

def stringifyExtensionList (l : List ExtensionInfo) : String :=
  match l with
  | [] => "[]"
  | _ => "[\n" ++ String.intercalate ",\n" (l.map stringifyExtension) ++ "\n  ]"

/-- JSON.stringify(data, null, 2) for the ExtensionsData shape, with keys in
insertion order. -/
def stringifyExtensionsData (d : ExtensionsData) : String :=
  "\x7b\n  \"extensions\": " ++ stringifyExtensionList d.extensions ++
  ",\n  \"lastUpdated\": " ++ jsonString d.lastUpdated ++
  ",\n  \"vscodeVersion\": " ++ jsonString d.vscodeVersion ++ "\n\x7d"

/-- UTF-8 bytes of one code point (Buffer.from uses UTF-8). -/
def utf8Bytes (n : Nat) : List Nat :=
  if n < 128 then [n]
  else if n < 2048 then [192 + n / 64, 128 + n % 64]
  else if n < 65536 then [224 + n / 4096, 128 + n / 64 % 64, 128 + n % 64]
  else [240 + n / 262144, 128 + n / 4096 % 64, 128 + n / 64 % 64, 128 + n % 64]

def strBytes (s : String) : Bytes :=
  (s.data.map (fun c => utf8Bytes c.toNat)).flatten

def defaultFileName : String := "extensions.json"

/-- config.get('fileName', 'extensions.json'): the default applies when the
setting is absent. -/
def configFileName (fileNameCfg : Option String) : String :=
  fileNameCfg.getD defaultFileName

/-- ExtensionSync.syncExtensions: snapshot the installed extensions, stamp
`lastUpdated` with the current time and `vscodeVersion` with the host
version, serialize, and upsert to the configured file name. -/
def syncExtensions {σ : Type} (R : Remote σ) (s0 : σ) (token : Option String)
    (repository now : String) (fileNameCfg : Option String)
    (allExts : List RawExtension) (vscodeVersion : String) : SyncResult σ :=
  let data : ExtensionsData :=
    ⟨getInstalledExtensions allExts, now, vscodeVersion⟩
  createOrUpdateFile R s0 token repository now
    (strBytes (stringifyExtensionsData data)) (configFileName fileNameCfg)

/-- All urls and bodies of PUT requests among the recorded events, in
order. -/
def putRequests : List Event → List (String × PutBody)
  | [] => []
  | .putEv u b _ :: rest => (u, b) :: putRequests rest
  | .getEv _ _ :: rest => putRequests rest

/- ## GitHubAuth (src/githubAuth.ts) -/

structure GitHubUser where
  login : String
  id : Nat
  avatarUrl : String
  name : Option String
  email : Option String
deriving DecidableEq, Repr

/-- GitHubAuth.getStoredToken: `secrets.get('github-token') || undefined`
maps both an absent entry and a stored empty string to `undefined`; the
surrounding try/catch means the accessor itself never throws. -/
def getStoredToken (secretToken : Option String) : Option String :=
  match secretToken with
  | none => none
  | some t => if t = "" then none else some t

/-- GitHubAuth.isLoggedIn: no stored token means false; otherwise one
identity lookup with that token; the try/catch converts every lookup failure
into false.  Totality of this function is the model of "never throws". -/
def isLoggedIn (secretToken : Option String)
    (fetchUser : String → Except HttpError GitHubUser) : Bool :=
  match getStoredToken secretToken with
  | none => false
  | some t =>
    match fetchUser t with
    | .ok _ => true
    | .error _ => false

/-- The `syncMyExts.clientId` / `syncMyExts.clientSecret` configuration;
the empty string is the unset default. -/
structure OAuthConfig where
  clientId : String
  clientSecret : String
deriving DecidableEq, Repr

/-- The two VS Code secret-storage entries written by saveToken.  The stored
user is kept as the structured value whose JSON serialization the code
persists. -/
structure Secrets where
  githubToken : Option String
  githubUser : Option GitHubUser
deriving DecidableEq, Repr

/-- The user-input and network outcomes one login run can observe:
showInputBox results (`none` = cancelled; JavaScript also treats an entered
empty string as falsy), the token exchange, and the identity fetch. -/
structure LoginEnv where
  setupClientId : Option String
  setupClientSecret : Option String
  authCode : Option String
  exchangeToken : String → Except String String
  fetchUser : String → Except HttpError GitHubUser

structure LoginOutcome where
  success : Bool
  config : OAuthConfig
  secrets : Secrets
deriving DecidableEq, Repr

/-- GitHubAuth.setupOAuthApp: prompt for client id, then client secret;
cancelling (or entering an empty string at) either prompt returns false
without touching the configuration; only after both prompts succeed are both
values persisted. -/
def setupOAuthApp (cfg : OAuthConfig) (env : LoginEnv) : Bool × OAuthConfig :=
  match env.setupClientId with
  | none => (false, cfg)
  | some cid =>
    if cid = "" then (false, cfg)
    else
      match env.setupClientSecret with
      | none => (false, cfg)
      | some cs =>
        if cs = "" then (false, cfg)
        else (true, ⟨cid, cs⟩)

/-- The part of GitHubAuth.login after the configuration check: build the
authorize URL and open the browser (cannot fail), prompt for the pasted
authorization code, exchange it, fetch the identity, and only then store
token and user.  Every thrown error is caught by login's try/catch, which
shows a message and returns false. -/
def loginExchange (cfg : OAuthConfig) (sec0 : Secrets) (env : LoginEnv) : LoginOutcome :=
  if cfg.clientId = "" ∨ cfg.clientSecret = "" then ⟨false, cfg, sec0⟩
  else
    match env.authCode with
    | none => ⟨false, cfg, sec0⟩
    | some code =>
      if code = "" then ⟨false, cfg, sec0⟩
      else
        match env.exchangeToken code with
        | .error _ => ⟨false, cfg, sec0⟩
        | .ok token =>
          match env.fetchUser token with
          | .error _ => ⟨false, cfg, sec0⟩
          | .ok user => ⟨true, cfg, ⟨some token, some user⟩⟩

/-- GitHubAuth.login: when client id or secret is unset, run setupOAuthApp
first and return false if it was cancelled; then run the exchange.  The
configuration visible afterwards and the secret storage are part of the
outcome. -/
def login (cfg0 : OAuthConfig) (sec0 : Secrets) (env : LoginEnv) : LoginOutcome :=
  if cfg0.clientId = "" ∨ cfg0.clientSecret = "" then
    match setupOAuthApp cfg0 env with
    | (false, cfg1) => ⟨false, cfg1, sec0⟩
    | (true, cfg1) => loginExchange cfg1 sec0 env
  else loginExchange cfg0 sec0 env

/- ## Helper lemmas about the store model -/

theorem assocFind_cons_self {α : Type} (p : String) (v : α) (l : List (String × α)) :
    assocFind p ((p, v) :: l) = some v := by
  simp [assocFind]

theorem createOrUpdateFile_store_absent (st : Store) (tok repo now file o rn : String)
    (content : Bytes) (hp : parseRepoCoordinate repo = some (o, rn))
    (hf : assocFind (apiUrl o rn file) st = none) :
    createOrUpdateFile storeRemote st (some tok) repo now content file =
      ⟨.ok (),
       (apiUrl o rn file,
         ⟨base64Decode (base64Encode content),
          mkSha (base64Decode (base64Encode content))⟩) :: st,
       [.getEv (apiUrl o rn file) (.error (.status 404)),
        .putEv (apiUrl o rn file) (createBody file now content) (.ok ())]⟩ := by
  simp [createOrUpdateFile, hp, storeRemote, storeGet, storePut, hf, catchCreate,
    createBody]

theorem createOrUpdateFile_store_present (st : Store) (tok repo now file o rn : String)
    (content : Bytes) (f : RemoteFile) (hp : parseRepoCoordinate repo = some (o, rn))
    (hf : assocFind (apiUrl o rn file) st = some f) :
    createOrUpdateFile storeRemote st (some tok) repo now content file =
      ⟨.ok (),
       (apiUrl o rn file,
         ⟨base64Decode (base64Encode content),
          mkSha (base64Decode (base64Encode content))⟩) :: st,
       [.getEv (apiUrl o rn file) (.ok ⟨base64Encode f.content, f.sha⟩),
        .getEv (apiUrl o rn file) (.ok ⟨base64Encode f.content, f.sha⟩),
        .putEv (apiUrl o rn file) (updateBody file now content f.sha) (.ok ())]⟩ := by
  simp [createOrUpdateFile, hp, storeRemote, storeGet, storePut, hf, updateBody]

theorem getFileContent_store_found (st : Store) (tok repo file o rn : String)
    (f : RemoteFile) (hp : parseRepoCoordinate repo = some (o, rn))
    (hf : assocFind (apiUrl o rn file) st = some f) :
    getFileContent storeRemote st (some tok) repo file =
      (.ok (base64Decode (base64Encode f.content)), st) := by
  simp [getFileContent, hp, storeRemote, storeGet, hf, base64Decode]

theorem getFileContent_store_missing (st : Store) (tok repo file o rn : String)
    (hp : parseRepoCoordinate repo = some (o, rn))
    (hf : assocFind (apiUrl o rn file) st = none) :
    getFileContent storeRemote st (some tok) repo file =
      (.error (.userError (notFoundMsg file)), st) := by
  simp [getFileContent, hp, storeRemote, storeGet, hf]

/- ## Claims -/

/-- C2, counterexample: the claim says repository-coordinate parsing splits
on the first "/" (so "a/b/c" would yield owner "a" and repoName "b/c"
unchanged) and never silently corrects an invalid coordinate by dropping
extra segments.  The code's parsing instead splits at every "/" and keeps
only the first two segments: "a/b/c" parses successfully as ("a", "b"),
silently dropping "/c". -/
theorem repoParse_claim_counterexample :
    parseRepoCoordinateSpec "a/b/c" = some ("a", "b/c") ∧
    parseRepoCoordinate "a/b/c" = some ("a", "b") ∧
    (("a", "b") : String × String) ≠ ("a", "b/c") := by
  refine ⟨by decide, by decide, by decide⟩

/-- C2, amended: repository-coordinate parsing splits the string at every
"/" and keeps the first two segments as owner and repoName; it succeeds
exactly when both of those segments are non-empty (so any further segments
are silently dropped), and when it fails both `getFileContent` and
`createOrUpdateFile` throw the repository-format error before making any
remote request. -/
theorem repoParse_amended (s : String) :
    (∀ o r : String, parseRepoCoordinate s = some (o, r) ↔
      ((∃ rest, jsSplitSlash s = o :: r :: rest) ∧ o ≠ "" ∧ r ≠ "")) ∧
    (parseRepoCoordinate s = none →
      ∀ (σ : Type) (R : Remote σ) (s0 : σ) (tok file : String),
        getFileContent R s0 (some tok) s file =
          (.error (.userError repoFormatMsg), s0)) ∧
    (parseRepoCoordinate s = none →
      ∀ (σ : Type) (R : Remote σ) (s0 : σ) (tok now file : String) (content : Bytes),
        createOrUpdateFile R s0 (some tok) s now content file =
          ⟨.error (.userError repoFormatMsg), s0, []⟩) := by
  refine ⟨?_, ?_, ?_⟩
  · intro o r
    constructor
    · intro h
      match hs : jsSplitSlash s with
      | [] => simp [parseRepoCoordinate, hs] at h
      | [o1] => simp [parseRepoCoordinate, hs] at h
      | o1 :: r1 :: rest =>
        rw [parseRepoCoordinate, hs] at h
        by_cases he : o1 = "" ∨ r1 = ""
        · simp [he] at h
        · simp [he] at h
          push_neg at he
          exact ⟨⟨rest, by simp [hs, h.1, h.2]⟩, h.1 ▸ he.1, h.2 ▸ he.2⟩
    · rintro ⟨⟨rest, hs⟩, ho, hr⟩
      simp [parseRepoCoordinate, hs, ho, hr]
  · intro hn σ R s0 tok file
    simp [getFileContent, hn]
  · intro hn σ R s0 tok now file content
    simp [createOrUpdateFile, hn]

/-- C2, witness for the amended theorem: a string with no slash fails with
the format error. -/
theorem repoParse_amended_witness :
    getFileContent storeRemote ([] : Store) (some "t") "aliceonly" "extensions.json" =
      (.error (.userError repoFormatMsg), ([] : Store)) :=
  (repoParse_amended "aliceonly").2.1 (by decide) Store storeRemote [] "t" "extensions.json"

/-- C8: isLoggedIn returns false when no token is stored; with a stored
token it returns true exactly when the single identity lookup with that
token succeeds, and every lookup failure yields false.  The routine is a
total Bool-valued function, which is the model of "never throws". -/
theorem isLoggedIn_spec (secretToken : Option String)
    (fetchUser : String → Except HttpError GitHubUser) :
    (getStoredToken secretToken = none → isLoggedIn secretToken fetchUser = false) ∧
    (∀ t, getStoredToken secretToken = some t →
      ((isLoggedIn secretToken fetchUser = true) ↔ ∃ u, fetchUser t = .ok u)) ∧
    (∀ t e, getStoredToken secretToken = some t → fetchUser t = .error e →
      isLoggedIn secretToken fetchUser = false) := by
  refine ⟨?_, ?_, ?_⟩
  · intro h; simp [isLoggedIn, h]
  · intro t h
    cases hu : fetchUser t with
    | ok u => simp [isLoggedIn, h, hu]
    | error e => simp [isLoggedIn, h, hu]
  · intro t e h he; simp [isLoggedIn, h, he]

/-- C8, witness: empty secret storage, a lookup that would fail anyway. -/
theorem isLoggedIn_spec_witness :
    isLoggedIn none (fun _ => .error .network) = false :=
  (isLoggedIn_spec none (fun _ => .error .network)).1 rfl

/-- C1: over the contents-endpoint store, an upsert on an absent path issues
exactly one write, a create whose body carries no revision token; an upsert
on a present path issues its write as an update carrying the sha returned by
the read event immediately preceding the write. -/
theorem upsert_revision_token_invariant (st : Store) (tok repo now file o rn : String)
    (content : Bytes) (hp : parseRepoCoordinate repo = some (o, rn)) :
    (assocFind (apiUrl o rn file) st = none →
      (createOrUpdateFile storeRemote st (some tok) repo now content file).events =
        [.getEv (apiUrl o rn file) (.error (.status 404)),
         .putEv (apiUrl o rn file) (createBody file now content) (.ok ())] ∧
      (createBody file now content).sha = none) ∧
    (∀ f : RemoteFile, assocFind (apiUrl o rn file) st = some f →
      (createOrUpdateFile storeRemote st (some tok) repo now content file).events =
        [.getEv (apiUrl o rn file) (.ok ⟨base64Encode f.content, f.sha⟩),
         .getEv (apiUrl o rn file) (.ok ⟨base64Encode f.content, f.sha⟩),
         .putEv (apiUrl o rn file) (updateBody file now content f.sha) (.ok ())] ∧
      (updateBody file now content f.sha).sha =
        some (GetResp.sha ⟨base64Encode f.content, f.sha⟩)) := by
  constructor
  · intro hf
    rw [createOrUpdateFile_store_absent st tok repo now file o rn content hp hf]
    exact ⟨rfl, rfl⟩
  · intro f hf
    rw [createOrUpdateFile_store_present st tok repo now file o rn content f hp hf]
    exact ⟨rfl, rfl⟩

/-- C1, witness: creating `extensions.json` in an empty store issues a
create carrying no sha. -/
theorem upsert_revision_token_invariant_witness :
    (createOrUpdateFile storeRemote ([] : Store) (some "tkn") "alice/my-exts" "T0"
        [104, 105] "extensions.json").events =
      [.getEv (apiUrl "alice" "my-exts" "extensions.json") (.error (.status 404)),
       .putEv (apiUrl "alice" "my-exts" "extensions.json")
         (createBody "extensions.json" "T0" [104, 105]) (.ok ())] ∧
    (createBody "extensions.json" "T0" [104, 105]).sha = none :=
  (upsert_revision_token_invariant [] "tkn" "alice/my-exts" "T0" "extensions.json"
    "alice" "my-exts" [104, 105] (by decide)).1 (by decide)

/-- C3: upsert then fetch on the same path round-trips the content
byte-for-byte, whether or not the path already existed in the store. -/
theorem upsert_fetch_roundtrip (st : Store) (tok repo now file o rn : String)
    (content : Bytes) (hp : parseRepoCoordinate repo = some (o, rn))
    (h256 : ∀ b ∈ content, b < 256) :
    (createOrUpdateFile storeRemote st (some tok) repo now content file).result = .ok () ∧
    (getFileContent storeRemote
        (createOrUpdateFile storeRemote st (some tok) repo now content file).state
        (some tok) repo file).1 = .ok content := by
  have hc : base64Decode (base64Encode content) = content := base64_roundtrip content h256
  cases hf : assocFind (apiUrl o rn file) st with
  | none =>
      rw [createOrUpdateFile_store_absent st tok repo now file o rn content hp hf]
      refine ⟨rfl, ?_⟩
      rw [getFileContent_store_found _ tok repo file o rn _ hp (assocFind_cons_self _ _ _)]
      simp [hc]
  | some f =>
      rw [createOrUpdateFile_store_present st tok repo now file o rn content f hp hf]
      refine ⟨rfl, ?_⟩
      rw [getFileContent_store_found _ tok repo file o rn _ hp (assocFind_cons_self _ _ _)]
      simp [hc]

/-- C3, witness: round-trip of the two bytes "hi" through a fresh store. -/
theorem upsert_fetch_roundtrip_witness :
    (createOrUpdateFile storeRemote ([] : Store) (some "tkn") "alice/my-exts" "T0"
        [104, 105] "settings.json").result = .ok () ∧
    (getFileContent storeRemote
        (createOrUpdateFile storeRemote ([] : Store) (some "tkn") "alice/my-exts" "T0"
          [104, 105] "settings.json").state
        (some "tkn") "alice/my-exts" "settings.json").1 = .ok [104, 105] :=
  upsert_fetch_roundtrip [] "tkn" "alice/my-exts" "T0" "settings.json"
    "alice" "my-exts" [104, 105] (by decide) (by decide)

/-- C5: fetching an absent path fails with the dedicated not-found error,
whose message starts with the missing file's name and ends with the
instruction to sync first, and which is a different constructor from every
propagated transport error; any non-404 failure of the underlying GET
propagates to the caller unchanged, for an arbitrary remote handler. -/
theorem fetch_notFound_and_propagation (tok repo file o rn : String)
    (hp : parseRepoCoordinate repo = some (o, rn)) :
    (∀ st : Store, assocFind (apiUrl o rn file) st = none →
      getFileContent storeRemote st (some tok) repo file =
        (.error (.userError (notFoundMsg file)), st)) ∧
    notFoundMsg file = file ++ " が見つかりません。先に同期を実行してください。" ∧
    (∀ e : HttpError, SyncError.userError (notFoundMsg file) ≠ SyncError.http e) ∧
    (∀ (σ : Type) (R : Remote σ) (s0 s1 : σ) (e : HttpError),
      R.doGet s0 (apiUrl o rn file) = (.error e, s1) → e ≠ .status 404 →
      getFileContent R s0 (some tok) repo file = (.error (.http e), s1)) := by
  refine ⟨?_, rfl, ?_, ?_⟩
  · intro st hf
    exact getFileContent_store_missing st tok repo file o rn hp hf
  · intro e h
    cases h
  · intro σ R s0 s1 e hg h404
    simp [getFileContent, hp, hg, h404]

/-- C5, witness: fetching from the empty store reports the not-found error
for the requested file name. -/
theorem fetch_notFound_and_propagation_witness :
    getFileContent storeRemote ([] : Store) (some "tkn") "alice/my-exts" "extensions.json" =
      (.error (.userError (notFoundMsg "extensions.json")), ([] : Store)) :=
  (fetch_notFound_and_propagation "tkn" "alice/my-exts" "extensions.json"
    "alice" "my-exts" (by decide)).1 [] (by decide)

/-- C6: importSettings fetches `settings.json` and overwrites the local user
settings file with its content; the secondary `remote-settings.json` is then
attempted, and its absence still completes the operation successfully; when
it is present and a local remote-settings path resolves, that file is
overwritten with the fetched content. -/
theorem importSettings_behavior (st : Store) (tok repo o rn : String)
    (L : LocalEnv) (uPath : String) (rPath : Option String) (f1 : RemoteFile)
    (hp : parseRepoCoordinate repo = some (o, rn))
    (h1 : assocFind (apiUrl o rn "settings.json") st = some f1)
    (h256 : ∀ b ∈ f1.content, b < 256)
    (hw : uPath ∉ L.badPaths) :
    (assocFind (apiUrl o rn "remote-settings.json") st = none →
      importSettings storeRemote st (some tok) repo L uPath rPath =
        (.ok (), st, ⟨(uPath, f1.content) :: L.fsys, L.badPaths⟩)) ∧
    (∀ f2 : RemoteFile, assocFind (apiUrl o rn "remote-settings.json") st = some f2 →
      (∀ b ∈ f2.content, b < 256) →
      ((rPath = none →
        importSettings storeRemote st (some tok) repo L uPath rPath =
          (.ok (), st, ⟨(uPath, f1.content) :: L.fsys, L.badPaths⟩)) ∧
       (∀ p, rPath = some p → p ∉ L.badPaths →
        importSettings storeRemote st (some tok) repo L uPath rPath =
          (.ok (), st, ⟨(p, f2.content) :: (uPath, f1.content) :: L.fsys, L.badPaths⟩)))) := by
  have hc1 : base64Decode (base64Encode f1.content) = f1.content :=
    base64_roundtrip f1.content h256
  have hg1 := getFileContent_store_found st tok repo "settings.json" o rn f1 hp h1
  constructor
  · intro hf2
    have hg2 := getFileContent_store_missing st tok repo "remote-settings.json" o rn hp hf2
    simp [importSettings, hg1, hg2, hc1, writeFileSync, hw]
  · intro f2 hf2 h256b
    have hc2 : base64Decode (base64Encode f2.content) = f2.content :=
      base64_roundtrip f2.content h256b
    have hg2 := getFileContent_store_found st tok repo "remote-settings.json" o rn f2 hp hf2
    constructor
    · intro hr
      simp [importSettings, hg1, hg2, hc1, hc2, writeFileSync, hw, hr]
    · intro p hr hpw
      simp [importSettings, hg1, hg2, hc1, hc2, writeFileSync, hw, hr, hpw]

/-- C6, witness: a store holding both files, a resolvable remote-settings
path; both local files end up overwritten and the call succeeds. -/
theorem importSettings_behavior_witness :
    importSettings storeRemote
        [(apiUrl "alice" "my-exts" "settings.json", ⟨[104], "s1"⟩),
         (apiUrl "alice" "my-exts" "remote-settings.json", ⟨[105], "s2"⟩)]
        (some "tkn") "alice/my-exts" ⟨[], []⟩ "/u/settings.json"
        (some "/u/remote-settings.json") =
      (.ok (),
       [(apiUrl "alice" "my-exts" "settings.json", ⟨[104], "s1"⟩),
        (apiUrl "alice" "my-exts" "remote-settings.json", ⟨[105], "s2"⟩)],
       ⟨[("/u/remote-settings.json", [105]), ("/u/settings.json", [104])], []⟩) :=
  ((importSettings_behavior
      [(apiUrl "alice" "my-exts" "settings.json", ⟨[104], "s1"⟩),
       (apiUrl "alice" "my-exts" "remote-settings.json", ⟨[105], "s2"⟩)]
      "tkn" "alice/my-exts" "alice" "my-exts" ⟨[], []⟩ "/u/settings.json"
      (some "/u/remote-settings.json") ⟨[104], "s1"⟩ (by decide) (by decide)
      (by decide) (by decide)).2 ⟨[105], "s2"⟩ (by decide) (by decide)).2
    "/u/remote-settings.json" rfl (by decide)

/-- C9: whatever the secondary remote-settings step does — 404, any other
remote failure of its fetch (the handler is arbitrary), or a local I/O error
writing the resolved path — importSettings still reports success once the
primary settings file has been fetched and written. -/
theorem importSettings_secondary_swallowed (σ : Type) (R : Remote σ) (s0 s1 : σ)
    (tok repo : String) (L : LocalEnv) (uPath : String) (rPath : Option String)
    (c1 : Bytes)
    (h1 : getFileContent R s0 (some tok) repo "settings.json" = (.ok c1, s1))
    (hw : uPath ∉ L.badPaths) :
    (importSettings R s0 (some tok) repo L uPath rPath).1 = .ok () := by
  rw [importSettings, h1]
  rcases hg2 : getFileContent R s1 (some tok) repo "remote-settings.json" with ⟨r2, s2⟩
  cases r2 with
  | error e => simp [writeFileSync, hw, hg2]
  | ok c2 =>
    cases rPath with
    | none => simp [writeFileSync, hw, hg2]
    | some p =>
      by_cases hbp : p ∈ L.badPaths
      · simp [writeFileSync, hw, hg2, hbp]
      · simp [writeFileSync, hw, hg2, hbp]

/-- C9, witness: the secondary fetch hits a network error (no response at
all) and the operation still succeeds. -/
theorem importSettings_secondary_swallowed_witness :
    (importSettings
        ⟨fun s url => if url = apiUrl "alice" "my-exts" "settings.json"
            then (.ok ⟨base64Encode [104], "s1"⟩, s) else (.error .network, s),
         fun s _ _ => (.ok (), s)⟩
        (0 : Nat) (some "tkn") "alice/my-exts" ⟨[], []⟩ "/u/settings.json"
        (some "/u/remote-settings.json")).1 = .ok () :=
  importSettings_secondary_swallowed Nat
    ⟨fun s url => if url = apiUrl "alice" "my-exts" "settings.json"
        then (.ok ⟨base64Encode [104], "s1"⟩, s) else (.error .network, s),
     fun s _ _ => (.ok (), s)⟩
    0 0 "tkn" "alice/my-exts" ⟨[], []⟩ "/u/settings.json"
    (some "/u/remote-settings.json") [104] (by decide) (by decide)

/-- C7: syncExtensions uploads exactly one file: the configured file name
(default `extensions.json` when the setting is absent), whose payload is the
pretty-printed JSON serialization of the snapshot whose extensions field is
the installed non-built-in extensions in enumeration order (id, name,
version, optional description), whose lastUpdated field is the current
timestamp and whose vscodeVersion field is the host version. -/
theorem syncExtensions_payload (st : Store) (tok repo now ver o rn : String)
    (fileNameCfg : Option String) (allExts : List RawExtension)
    (hp : parseRepoCoordinate repo = some (o, rn)) :
    ((putRequests (syncExtensions storeRemote st (some tok) repo now fileNameCfg
        allExts ver).events).map (fun r => (r.1, r.2.content)) =
      [(apiUrl o rn (configFileName fileNameCfg),
        base64Encode (strBytes (stringifyExtensionsData
          ⟨(allExts.filter (fun e => !e.isBuiltin)).map toExtensionInfo, now, ver⟩)))]) ∧
    configFileName none = "extensions.json" := by
  refine ⟨?_, rfl⟩
  rw [syncExtensions]
  cases hf : assocFind (apiUrl o rn (configFileName fileNameCfg)) st with
  | none =>
      rw [createOrUpdateFile_store_absent st tok repo now (configFileName fileNameCfg)
        o rn _ hp hf]
      simp [putRequests, createBody, getInstalledExtensions]
  | some f =>
      rw [createOrUpdateFile_store_present st tok repo now (configFileName fileNameCfg)
        o rn _ f hp hf]
      simp [putRequests, updateBody, getInstalledExtensions]

/-- C7, witness: two installed extensions and one built-in; the single
upload goes to the default file name and carries the serialized snapshot of
exactly the two non-built-in entries in order. -/
theorem syncExtensions_payload_witness :
    ((putRequests (syncExtensions storeRemote ([] : Store) (some "tkn") "alice/my-exts"
        "2024-01-01T00:00:00.000Z" none
        [⟨"ms.python", false, some "Python", "python", "1.0.0", none⟩,
         ⟨"vscode.git", true, some "Git", "git", "1.0.0", none⟩,
         ⟨"ms.go", false, none, "go", "2.0.0", some "Go support"⟩]
        "1.90.0").events).map (fun r => (r.1, r.2.content)) =
      [(apiUrl "alice" "my-exts" (configFileName none),
        base64Encode (strBytes (stringifyExtensionsData
          ⟨[⟨"ms.python", "Python", "1.0.0", none⟩, ⟨"ms.go", "go", "2.0.0", some "Go support"⟩],
           "2024-01-01T00:00:00.000Z", "1.90.0"⟩)))]) ∧
    configFileName none = "extensions.json" :=
  syncExtensions_payload [] "tkn" "alice/my-exts" "2024-01-01T00:00:00.000Z" "1.90.0"
    "alice" "my-exts" none
    [⟨"ms.python", false, some "Python", "python", "1.0.0", none⟩,
     ⟨"vscode.git", true, some "Git", "git", "1.0.0", none⟩,
     ⟨"ms.go", false, none, "go", "2.0.0", some "Go support"⟩]
    (by decide)

/-- C10: both metadata reads and the update write run inside the one
try/catch of createOrUpdateFile, so when the update write itself comes back
404 the catch issues the create request — which carries no revision token —
even though the initial read had found the file.  Stated for an arbitrary
remote handler whose two reads succeed and whose update write returns 404. -/
theorem upsert_update404_fallback (σ : Type) (R : Remote σ) (s0 s1 s2 s3 s4 : σ)
    (tok repo now file o rn : String) (content : Bytes) (g1 g2 : GetResp)
    (pr : Except HttpError Unit)
    (hp : parseRepoCoordinate repo = some (o, rn))
    (h1 : R.doGet s0 (apiUrl o rn file) = (.ok g1, s1))
    (h2 : R.doGet s1 (apiUrl o rn file) = (.ok g2, s2))
    (h3 : R.doPut s2 (apiUrl o rn file) (updateBody file now content g2.sha) =
      (.error (.status 404), s3))
    (h4 : R.doPut s3 (apiUrl o rn file) (createBody file now content) = (pr, s4)) :
    (createOrUpdateFile R s0 (some tok) repo now content file).events =
      [.getEv (apiUrl o rn file) (.ok g1), .getEv (apiUrl o rn file) (.ok g2),
       .putEv (apiUrl o rn file) (updateBody file now content g2.sha)
         (.error (.status 404)),
       .putEv (apiUrl o rn file) (createBody file now content) pr] ∧
    (createBody file now content).sha = none := by
  refine ⟨?_, rfl⟩
  cases pr with
  | ok u => simp [createOrUpdateFile, hp, h1, h2, h3, catchCreate, h4]
  | error e => simp [createOrUpdateFile, hp, h1, h2, h3, catchCreate, h4]

/-- C10, witness: a handler that deletes the file between the read and the
write (every PUT carrying a sha is answered 404); the trace ends with a
create carrying no sha although the initial read succeeded. -/
theorem upsert_update404_fallback_witness :
    (createOrUpdateFile
        ⟨fun s _ => (.ok ⟨"aGk=", "sha1"⟩, s + 1),
         fun s _ b => match b.sha with
           | some _ => (.error (.status 404), s + 1)
           | none => (.ok (), s + 1)⟩
        (0 : Nat) (some "tkn") "alice/my-exts" "T0" [104, 105] "extensions.json").events =
      [.getEv (apiUrl "alice" "my-exts" "extensions.json") (.ok ⟨"aGk=", "sha1"⟩),
       .getEv (apiUrl "alice" "my-exts" "extensions.json") (.ok ⟨"aGk=", "sha1"⟩),
       .putEv (apiUrl "alice" "my-exts" "extensions.json")
         (updateBody "extensions.json" "T0" [104, 105] "sha1") (.error (.status 404)),
       .putEv (apiUrl "alice" "my-exts" "extensions.json")
         (createBody "extensions.json" "T0" [104, 105]) (.ok ())] ∧
    (createBody "extensions.json" "T0" [104, 105]).sha = none :=
  upsert_update404_fallback Nat
    ⟨fun s _ => (.ok ⟨"aGk=", "sha1"⟩, s + 1),
     fun s _ b => match b.sha with
       | some _ => (.error (.status 404), s + 1)
       | none => (.ok (), s + 1)⟩
    0 1 2 3 4 "tkn" "alice/my-exts" "T0" "extensions.json" "alice" "my-exts"
    [104, 105] ⟨"aGk=", "sha1"⟩ ⟨"aGk=", "sha1"⟩ (.ok ())
    (by decide) rfl rfl rfl rfl

/- ## C4 helper lemmas -/

theorem setupOAuthApp_cases (cfg : OAuthConfig) (env : LoginEnv) :
    setupOAuthApp cfg env = (false, cfg) ∨
    (∃ cid cs, env.setupClientId = some cid ∧ cid ≠ "" ∧
      env.setupClientSecret = some cs ∧ cs ≠ "" ∧
      setupOAuthApp cfg env = (true, ⟨cid, cs⟩)) := by
  rw [setupOAuthApp]
  cases h1 : env.setupClientId with
  | none => exact Or.inl rfl
  | some cid =>
    by_cases hc : cid = ""
    · simp [hc]
    · cases h2 : env.setupClientSecret with
      | none => simp [hc]
      | some cs =>
        by_cases hs : cs = ""
        · simp [hc, hs]
        · exact Or.inr ⟨cid, cs, rfl, hc, rfl, hs, by simp [hc, hs]⟩

theorem loginExchange_cases (cfg : OAuthConfig) (sec0 : Secrets) (env : LoginEnv) :
    loginExchange cfg sec0 env = ⟨false, cfg, sec0⟩ ∨
    (loginExchange cfg sec0 env).success = true := by
  rw [loginExchange]
  split
  · exact Or.inl rfl
  · cases hac : env.authCode with
    | none => exact Or.inl rfl
    | some code =>
      by_cases hc : code = ""
      · simp [hc]
      · simp only [hc, if_false]
        cases ht : env.exchangeToken code with
        | error e => simp [ht]
        | ok token =>
          cases hu : env.fetchUser token with
          | error e => simp [ht, hu]
          | ok user => simp [ht, hu]

/-- C4, counterexample: the claim says that after any aborted login run, any
client id the user already entered during that run remains saved for reuse.
In the run where the user enters client id "abc" and then cancels the client
secret prompt, the flow aborts but setupOAuthApp discards the entered id:
the stored clientId is still the empty string, not "abc". -/
theorem login_abort_counterexample :
    (login ⟨"", ""⟩ ⟨none, none⟩
        ⟨some "abc", none, none, fun _ => .error "e", fun _ => .error .network⟩).success
      = false ∧
    (login ⟨"", ""⟩ ⟨none, none⟩
        ⟨some "abc", none, none, fun _ => .error "e", fun _ => .error .network⟩).config.clientId
      ≠ "abc" := by
  exact ⟨rfl, by decide⟩

theorem setupOAuthApp_complete (cfg : OAuthConfig) (env : LoginEnv) (cid cs : String)
    (h1 : env.setupClientId = some cid) (hc : cid ≠ "")
    (h2 : env.setupClientSecret = some cs) (hs : cs ≠ "") :
    setupOAuthApp cfg env = (true, ⟨cid, cs⟩) := by
  simp [setupOAuthApp, h1, h2, hc, hs]

/-- C4, amended: whenever a login run ends in the Aborted state (at any
step), no credential is persisted — the secret storage is exactly what it
was before the run; the client id and secret are persisted exactly when the
user completed both configuration prompts during the run: if setup ran and
both prompts were answered with non-empty values, the entered pair is the
configuration afterwards (saved for reuse on retry), while if setup never
ran, or either prompt was cancelled or answered empty, the configuration is
exactly what it was before the run (so an id entered in a setup sequence
whose secret prompt was cancelled is discarded with it). -/
theorem login_abort_amended (cfg0 : OAuthConfig) (sec0 : Secrets) (env : LoginEnv)
    (h : (login cfg0 sec0 env).success = false) :
    (login cfg0 sec0 env).secrets = sec0 ∧
    ((cfg0.clientId = "" ∨ cfg0.clientSecret = "") →
      ∀ cid cs, env.setupClientId = some cid → cid ≠ "" →
        env.setupClientSecret = some cs → cs ≠ "" →
        (login cfg0 sec0 env).config = ⟨cid, cs⟩) ∧
    (((cfg0.clientId ≠ "" ∧ cfg0.clientSecret ≠ "") ∨
      env.setupClientId = none ∨ env.setupClientId = some "" ∨
      env.setupClientSecret = none ∨ env.setupClientSecret = some "") →
      (login cfg0 sec0 env).config = cfg0) := by
  rw [login] at h ⊢
  by_cases h0 : cfg0.clientId = "" ∨ cfg0.clientSecret = ""
  · simp only [if_pos h0] at h ⊢
    rcases setupOAuthApp_cases cfg0 env with hs | ⟨cid0, cs0, hcid, hc, hcs, hs2, hs⟩
    · rw [hs] at h ⊢
      refine ⟨rfl, ?_, fun _ => rfl⟩
      intro _ cid cs h1 hne1 h2 hne2
      have hcomp := setupOAuthApp_complete cfg0 env cid cs h1 hne1 h2 hne2
      rw [hs] at hcomp
      simp at hcomp
    · rw [hs] at h ⊢
      have hf : (loginExchange ⟨cid0, cs0⟩ sec0 env).success = false := h
      rcases loginExchange_cases ⟨cid0, cs0⟩ sec0 env with he | he
      · refine ⟨?_, ?_, ?_⟩
        · show (loginExchange ⟨cid0, cs0⟩ sec0 env).secrets = sec0
          rw [he]
        · intro _ cid cs h1 hne1 h2 hne2
          rw [hcid] at h1
          rw [hcs] at h2
          injection h1 with e1
          injection h2 with e2
          subst e1
          subst e2
          show (loginExchange ⟨cid0, cs0⟩ sec0 env).config = ⟨cid0, cs0⟩
          rw [he]
        · intro hcase
          rcases hcase with ⟨hne1, hne2⟩ | hna | hna | hna | hna
          · rcases h0 with ha | ha
            · exact absurd ha hne1
            · exact absurd ha hne2
          · rw [hcid] at hna
            cases hna
          · rw [hcid] at hna
            injection hna with hx
            exact absurd hx hc
          · rw [hcs] at hna
            cases hna
          · rw [hcs] at hna
            injection hna with hx
            exact absurd hx hs2
      · rw [he] at hf
        cases hf
  · simp only [if_neg h0] at h ⊢
    push_neg at h0
    have hf : (loginExchange cfg0 sec0 env).success = false := h
    rcases loginExchange_cases cfg0 sec0 env with he | he
    · refine ⟨?_, ?_, ?_⟩
      · show (loginExchange cfg0 sec0 env).secrets = sec0
        rw [he]
      · intro hcfg
        rcases hcfg with ha | ha
        · exact absurd ha h0.1
        · exact absurd ha h0.2
      · intro _
        show (loginExchange cfg0 sec0 env).config = cfg0
        rw [he]
    · rw [he] at hf
      cases hf

/-- C4, witness for the amended theorem: setup completes with "id1"/"sec1",
then the code-entry prompt is cancelled; the run aborts with the secrets
untouched and the fully entered id/secret pair persisted as the resulting
configuration. -/
theorem login_abort_amended_witness :
    (login ⟨"", ""⟩ ⟨none, none⟩
        ⟨some "id1", some "sec1", none, fun _ => .error "e", fun _ => .error .network⟩).secrets
      = (⟨none, none⟩ : Secrets) ∧
    (login ⟨"", ""⟩ ⟨none, none⟩
        ⟨some "id1", some "sec1", none, fun _ => .error "e", fun _ => .error .network⟩).config
      = (⟨"id1", "sec1"⟩ : OAuthConfig) :=
  ⟨(login_abort_amended ⟨"", ""⟩ ⟨none, none⟩
      ⟨some "id1", some "sec1", none, fun _ => .error "e", fun _ => .error .network⟩ rfl).1,
   (login_abort_amended ⟨"", ""⟩ ⟨none, none⟩
      ⟨some "id1", some "sec1", none, fun _ => .error "e", fun _ => .error .network⟩ rfl).2.1
     (Or.inl rfl) "id1" "sec1" rfl (by decide) rfl (by decide)⟩
